import Mathlib

/-!
Verification of `horizon-pkg-fetch` (`fetch.go`): a shallow embedding of
the fetch/verify pipeline in `src/fetch.go`.

Modelling conventions:
* The network is an oracle `Net : String → Option HttpResponse` mapping a
  request URL to the response `client.Do` would produce; `none` models a
  transport error where no `*http.Response` is obtained (in Go the returned
  response pointer is then `nil`).
* The filesystem is an association list from path to file content (a byte
  list).  File-system primitives (`OpenFile`, `WriteFile`, `Remove`) are
  modelled as total operations on this state; OS-level failures of these
  primitives are out of the model except where a claim needs them
  (`verifyPkgPart` takes a flag for `os.Remove` failing).
* External capabilities — `sha256` hex digesting, `policy.VerifyWorkload`,
  `json.Unmarshal`, `filepath.Abs` — are oracle function parameters.
* A Go runtime panic (nil-pointer dereference) is the `GoResult.panic`
  value; normal returns are `GoResult.ret`.
* HTTP basic-auth credential attachment (`authenticatedRequest`) changes
  only request headers, never the URL, the response, or control flow, so
  the credential table is omitted from the model.
* `fetchAndVerify` launches one goroutine per part and joins them; the
  model serialises the goroutines in map order, which is one of the
  admissible interleavings (all recorder writes are lock-protected).
-/

/-- One entry of a part's `Sources` list (`horizonpkg.PartSource`). -/
structure PartSource where
  url : String
deriving DecidableEq, Repr

/-- An HTTP response as far as this program observes it: status code and body. -/
structure HttpResponse where
  statusCode : Nat
  body : List Nat
deriving DecidableEq, Repr

/-- The network oracle: request URL to response; `none` is a transport error
where no response object is obtained. -/
abbrev Net := String → Option HttpResponse

/-- Filesystem state: association list from path to file content. -/
abbrev FS := List (String × List Nat)

/-- Look up a file's content. -/
def FS.lookupFile : FS → String → Option (List Nat)
  | [], _ => none
  | (p, c) :: rest, q => if p = q then some c else FS.lookupFile rest q

/-- Does the file exist? -/
def FS.hasFile (fs : FS) (p : String) : Bool :=
  (fs.lookupFile p).isSome

/-- Replace (or create) the file at `p` with content `c`. -/
def FS.setFile : FS → String → List Nat → FS
  | [], p, c => [(p, c)]
  | (q, d) :: rest, p, c =>
    if q = p then (q, c) :: rest else (q, d) :: FS.setFile rest p c

/-- Delete the file at `p` (`os.Remove`). -/
def FS.removeFile : FS → String → FS
  | [], _ => []
  | (q, d) :: rest, p =>
    if q = p then FS.removeFile rest p else (q, d) :: FS.removeFile rest p

/-- `os.OpenFile(path, O_RDWR|O_CREATE, 0600)`: creates the file empty when
absent, opens the existing file otherwise.  Because `O_EXCL` is not among the
flags, opening a pre-existing file succeeds — this call never produces an
error for which `os.IsExist` holds. -/
def FS.openCreate (fs : FS) (p : String) : FS :=
  if fs.hasFile p then fs else fs.setFile p []

/-- Writing `new` through a file descriptor positioned at offset 0 of a file
holding `old`, without truncation (`io.Copy(partFile, body)` on a freshly
opened `O_RDWR` handle): bytes beyond the written range survive. -/
def overwriteFrom0 (old new : List Nat) : List Nat :=
  new ++ old.drop new.length

/-- Outcome of a Go function call: a normal return or a runtime panic. -/
inductive GoResult (α : Type) where
  | panic : GoResult α
  | ret : α → GoResult α
deriving DecidableEq, Repr

/-- Payload of a `PkgSignatureVerificationError` from `verifyPkgPart`:
either the hash-mismatch message (expected vs. actual digest, line 296) or
the failed-cryptographic-verification message (line 304). -/
inductive SigErrInfo where
  | hashMismatch (expected actual : String)
  | cryptoFail
deriving DecidableEq, Repr

/-- The error values `fetch.go` produces, with their distinguishing payloads.
`external` stands for a raw Go error returned unwrapped (e.g. the error out
of `policy.VerifyWorkload`, `client.Do` or `json.Unmarshal`). -/
inductive FetchErr where
  | pkgMetaStatus (statusCode : Nat)
  | pkgMetaVerify
  | pkgSourceFetchAuth (partURL : String) (statusCode : Nat)
  | pkgSourceFetch (info : Option (String × Nat))
  | pkgSignatureVerification (info : SigErrInfo)
  | verificationError
  | external (msg : String)
deriving DecidableEq, Repr

/-- Oracle for `policy.VerifyWorkload primarySigningKey sig hasher userKeysDir`:
given (primary key, signature, content digest, keys dir), an error or a
verification verdict. -/
abbrev VerifyWorkload := String → String → String → String → Except String Bool

/-- `verifySignatureWithAnyKey` (fetch.go lines 307-324): walk the signature
list; a `VerifyWorkload` error aborts the scan and is returned as-is; the
first verified signature yields success; exhaustion yields
`VerificationError{}`. -/
def verifySignatureWithAnyKey (vw : VerifyWorkload)
    (primarySigningKey userKeysDir digest : String) :
    List String → Except FetchErr Unit
  | [] => .error .verificationError
  | sig :: rest =>
    match vw primarySigningKey sig digest userKeysDir with
    | .error e => .error (.external e)
    | .ok true => .ok ()
    | .ok false => verifySignatureWithAnyKey vw primarySigningKey userKeysDir digest rest

/-- The failure record `partFetchFailure` for one part source. -/
structure partFetchFailure where
  HTTPStatusCode : Nat
  PartURL : String
deriving DecidableEq, Repr

/-- `strings.HasPrefix(s, "/")`: the string's first character is `/`.
(Core's `String.startsWith` is extensionally the same; this structural form
reduces definitionally.) -/
def hasSlashPrefix (s : String) : Bool :=
  match s.data with
  | [] => false
  | c :: _ => c = '/'

/-- URL resolution for one part source (fetch.go lines 208-215): a location
starting with `/` is prefixed with the package base URL, anything else is
used verbatim. -/
def resolvePartURL (pkgURLBase : String) (sourceURL : String) : String :=
  if hasSlashPrefix sourceURL then pkgURLBase ++ sourceURL else sourceURL

/-- The source loop of `fetchPkgPart` (fetch.go lines 204-267).  State:
remaining sources, filesystem, request log, and the `fetchFailure` variable
(which the loop resets to `nil` at the top of every iteration, line 217).
On a transport error the Go code dereferences the nil response pointer when
building `partFetchFailure{response.StatusCode, pURL}` (line 228), a runtime
panic.  Returns the function result together with filesystem and the URLs
requested, in order. -/
def fetchPartLoop (net : Net) (pkgURLBase partPath : String) (expectedBytes : Nat) :
    List PartSource → FS → List String → Option partFetchFailure →
    GoResult (Except FetchErr Unit) × FS × List String
  | [], fs, reqs, fetchFailure =>
    match fetchFailure with
    | some f =>
      if f.HTTPStatusCode = 401 ∨ f.HTTPStatusCode = 403 then
        (.ret (.error (.pkgSourceFetchAuth f.PartURL f.HTTPStatusCode)), fs, reqs)
      else
        (.ret (.error (.pkgSourceFetch (some (f.PartURL, f.HTTPStatusCode)))), fs, reqs)
    | none => (.ret (.error (.pkgSourceFetch none)), fs, reqs)
  | source :: rest, fs, reqs, _ =>
    let pURL := resolvePartURL pkgURLBase source.url
    let reqs' := reqs ++ [pURL]
    match net pURL with
    | none => (.panic, fs, reqs')
    | some response =>
      if response.statusCode ≠ 200 then
        fetchPartLoop net pkgURLBase partPath expectedBytes rest fs reqs'
          (some ⟨response.statusCode, pURL⟩)
      else
        let old := (fs.lookupFile partPath).getD []
        let copied := response.body.length
        let fs' := fs.setFile partPath (overwriteFrom0 old response.body)
        if copied ≠ expectedBytes then
          fetchPartLoop net pkgURLBase partPath expectedBytes rest
            ((fs'.removeFile partPath).openCreate partPath) reqs' none
        else
          (.ret (.ok ()), fs', reqs')

/-- `fetchPkgPart` (fetch.go lines 157-268).  `tryOpen` uses
`O_RDWR|O_CREATE` without `O_EXCL`, so it succeeds on a pre-existing file
and `openErr != nil && os.IsExist(openErr)` (line 178) is always false: the
size-compare/skip-redownload block on lines 178-202 is unreachable and the
function always proceeds to the download loop. -/
def fetchPkgPart (net : Net) (pkgURLBase partPath : String) (expectedBytes : Nat)
    (sources : List PartSource) (fs : FS) :
    GoResult (Except FetchErr Unit) × FS × List String :=
  fetchPartLoop net pkgURLBase partPath expectedBytes sources
    (fs.openCreate partPath) [] none

/-- `verifyPkgPart` (fetch.go lines 271-305): hash the file; on digest
mismatch delete the file (a failed `os.Remove`, flag `removeFails`, is only
logged) and return the hash-mismatch verification error; on digest match
delegate to `verifySignatureWithAnyKey` and on its failure return the
cryptographic-verification error without touching the file.
`sha256hex` is the oracle for the hex-encoded SHA-256 digest. -/
def verifyPkgPart (sha256hex : List Nat → String) (vw : VerifyWorkload)
    (primarySigningKey userKeysDir partPath partHash : String)
    (signatures : List String) (removeFails : Bool) (fs : FS) :
    Except FetchErr Unit × FS :=
  match fs.lookupFile partPath with
  | none => (.error (.external "open failed"), fs)
  | some content =>
    let actualHash := sha256hex content
    if partHash ≠ actualHash then
      let fs' := if removeFails then fs else fs.removeFile partPath
      (.error (.pkgSignatureVerification (.hashMismatch partHash actualHash)), fs')
    else
      match verifySignatureWithAnyKey vw primarySigningKey userKeysDir actualHash signatures with
      | .ok () => (.ok (), fs)
      | .error _ => (.error (.pkgSignatureVerification .cryptoFail), fs)

/-- A part descriptor (`horizonpkg.DockerImagePart`).  `bytes` is the
declared exact size (a non-negative int64 in Go). -/
structure DockerImagePart where
  id : String
  bytes : Nat
  sha256sum : String
  signatures : List String
  sources : List PartSource
deriving DecidableEq, Repr

/-- The manifest (`horizonpkg.Pkg`): its ID, the `Meta.Provides.Images`
mapping (part ID → repository tag) and the `Parts` mapping (part name →
descriptor), both as association lists. -/
structure Pkg where
  id : String
  providesImages : List (String × String)
  parts : List (String × DockerImagePart)
deriving DecidableEq, Repr

/-- Association-list lookup (a Go map index expression). -/
def lookupAssoc {α : Type} : List (String × α) → String → Option α
  | [], _ => none
  | (k, v) :: rest, q => if k = q then some v else lookupAssoc rest q

/-- Oracle for `json.Unmarshal` of a manifest body: `none` is a decode
error. -/
abbrev DecodePkg := List Nat → Option Pkg

/-- `path.Join(a, b)` for the simple separator-free components this program
joins. -/
def pathJoin (a b : String) : String :=
  a ++ "/" ++ b

/-- `fetchPkgMeta` (fetch.go lines 56-111): GET the manifest URL; require
status 200; hash the body; verify the single manifest signature; JSON-decode;
only then write `<destinationDir>/<pkg.ID>.json`.  Returns the parsed
manifest (or error), the filesystem, and the URLs requested. -/
def fetchPkgMeta (net : Net) (sha256hex : List Nat → String) (vw : VerifyWorkload)
    (decodePkg : DecodePkg)
    (primarySigningKey userKeysDir pkgURL pkgURLSignature destinationDir : String)
    (fs : FS) : Except FetchErr Pkg × FS × List String :=
  let reqs := [pkgURL]
  match net pkgURL with
  | none => (.error (.external "transport error"), fs, reqs)
  | some response =>
    if response.statusCode ≠ 200 then
      (.error (.pkgMetaStatus response.statusCode), fs, reqs)
    else
      let rawBody := response.body
      let digest := sha256hex rawBody
      match verifySignatureWithAnyKey vw primarySigningKey userKeysDir digest
          [pkgURLSignature] with
      | .error _ => (.error .pkgMetaVerify, fs, reqs)
      | .ok () =>
        match decodePkg rawBody with
        | none => (.error (.external "json unmarshal error"), fs, reqs)
        | some pkg =>
          (.ok pkg, fs.setFile (pathJoin destinationDir (pkg.id ++ ".json")) rawBody, reqs)

/-- `precheckPkgParts` (fetch.go lines 113-124): every part must have an
entry in `Meta.Provides.Images` keyed by the part's `ID`; the first part
without one aborts with an error naming it. -/
def precheckPkgParts (providesImages : List (String × String)) :
    List (String × DockerImagePart) → Except String Unit
  | [] => .ok ()
  | (_, part) :: rest =>
    match lookupAssoc providesImages part.id with
    | some _ => precheckPkgParts providesImages rest
    | none => .error part.id

/-- The per-part timeout (fetch.go lines 367-372): 120 s for parts up to
1 MiB, otherwise a size-proportional budget.  It parameterises the HTTP
client; the network oracle already reflects any timeout effects, so the
value does not feed further into the model. -/
def partTimeoutS (partBytes : Nat) : Nat :=
  if partBytes ≤ 1024 * 1024 then 120 else partBytes * 8 / 1024 / 100

/-- State of the sequentialised orchestrator loop: the error recorder's map,
the `fetched` list, the filesystem and the request log. -/
structure OrchState where
  errors : List (String × FetchErr)
  fetched : List String
  fs : FS
  reqs : List String
deriving Repr

/-- The per-part goroutine body of `fetchAndVerify` (fetch.go lines
359-383), serialised: fetch the part; record a fetch error under the part
name; if the recorder holds no errors (the check on line 378, read here
after this part's own fetch), verify and record either the verification
error or the absolute path of the part.  `abs` is the `filepath.Abs`
oracle. -/
def fetchAndVerifyStep (net : Net) (sha256hex : List Nat → String)
    (vw : VerifyWorkload) (abs : String → String)
    (pkgURLBase destinationDir primarySigningKey userKeysDir : String)
    (st : OrchState) (name : String) (part : DockerImagePart) :
    GoResult OrchState :=
  let partPath := pathJoin destinationDir name
  match fetchPkgPart net pkgURLBase partPath part.bytes part.sources st.fs with
  | (.panic, _, _) => .panic (α := OrchState)
  | (.ret r, fs', reqs') =>
    let st' : OrchState :=
      match r with
      | .error e => { st with errors := st.errors ++ [(name, e)], fs := fs',
                              reqs := st.reqs ++ reqs' }
      | .ok () => { st with fs := fs', reqs := st.reqs ++ reqs' }
    if st'.errors.length = 0 then
      match verifyPkgPart sha256hex vw primarySigningKey userKeysDir partPath
          part.sha256sum part.signatures false st'.fs with
      | (.error e, fs'') => .ret { st' with errors := st'.errors ++ [(name, e)], fs := fs'' }
      | (.ok (), fs'') => .ret { st' with fetched := st'.fetched ++ [abs partPath], fs := fs'' }
    else
      .ret st'

/-- Fold `fetchAndVerifyStep` over the parts; a panicking goroutine crashes
the process. -/
def fetchAndVerifyLoop (net : Net) (sha256hex : List Nat → String)
    (vw : VerifyWorkload) (abs : String → String)
    (pkgURLBase destinationDir primarySigningKey userKeysDir : String) :
    List (String × DockerImagePart) → OrchState → GoResult OrchState
  | [], st => .ret st
  | (name, part) :: rest, st =>
    match fetchAndVerifyStep net sha256hex vw abs pkgURLBase destinationDir
        primarySigningKey userKeysDir st name part with
    | .panic => .panic (α := OrchState)
    | .ret st' =>
      fetchAndVerifyLoop net sha256hex vw abs pkgURLBase destinationDir
        primarySigningKey userKeysDir rest st'

/-- `fetchAndVerify` (fetch.go lines 326-393): run every part, join, and —
lines 388-392 — fail with the full error map when it is non-empty, otherwise
return the `fetched` list. -/
def fetchAndVerify (net : Net) (sha256hex : List Nat → String)
    (vw : VerifyWorkload) (abs : String → String)
    (pkgURLBase : String) (parts : List (String × DockerImagePart))
    (destinationDir primarySigningKey userKeysDir : String) (fs : FS) :
    GoResult (Except (List (String × FetchErr)) (List String)) × FS × List String :=
  match fetchAndVerifyLoop net sha256hex vw abs pkgURLBase destinationDir
      primarySigningKey userKeysDir parts ⟨[], [], fs, []⟩ with
  | .panic => (.panic, fs, [])
  | .ret st =>
    if st.errors.length > 0 then
      (.ret (.error st.errors), st.fs, st.reqs)
    else
      (.ret (.ok st.fetched), st.fs, st.reqs)

/-- Errors out of the top-level driver `PkgFetch`. -/
inductive TopErr where
  | cfgNoSignature
  | metaStage (e : FetchErr)
  | precheckFail (partId : String)
  | aggregate (errs : List (String × FetchErr))
deriving Repr

/-- `strings.Split(s, "/")` on the character list. -/
def splitSlash : List Char → List (List Char)
  | [] => [[]]
  | c :: rest =>
    match splitSlash rest with
    | [] => [[c]]
    | g :: gs => if c = '/' then [] :: g :: gs else (c :: g) :: gs

/-- `strings.Join(groups, "/")`. -/
def joinSlash : List (List Char) → List Char
  | [] => []
  | [g] => g
  | g :: gs => g ++ '/' :: joinSlash gs

/-- Base-URL derivation in `PkgFetch` (fetch.go lines 432-433): split the
manifest URL on `/` and rejoin all but the last segment. -/
def pkgURLBaseOf (pkgURL : String) : String :=
  ⟨joinSlash (splitSlash pkgURL.data).dropLast⟩

/-- `PkgFetch` (fetch.go lines 398-447): build a client (no network
traffic), reject an empty manifest signature, create the destination
directory, fetch and verify the manifest, precheck the parts, create the
per-package subdirectory, derive the package base URL, and run the
orchestrator.  Directory creation (`MkdirAll`) is modelled as always
succeeding.  Returns result, filesystem, and every URL requested during the
call, in order. -/
def PkgFetch (net : Net) (sha256hex : List Nat → String) (vw : VerifyWorkload)
    (decodePkg : DecodePkg) (abs : String → String)
    (pkgURL pkgURLSignature destinationDir primarySigningKey userKeysDir : String)
    (fs : FS) : GoResult (Except TopErr (List String)) × FS × List String :=
  if pkgURLSignature = "" then
    (.ret (.error .cfgNoSignature), fs, [])
  else
    match fetchPkgMeta net sha256hex vw decodePkg primarySigningKey userKeysDir
        pkgURL pkgURLSignature destinationDir fs with
    | (.error e, fs₁, reqs₁) => (.ret (.error (.metaStage e)), fs₁, reqs₁)
    | (.ok pkg, fs₁, reqs₁) =>
      match precheckPkgParts pkg.providesImages pkg.parts with
      | .error partId => (.ret (.error (.precheckFail partId)), fs₁, reqs₁)
      | .ok () =>
        let pkgDestinationDir := pathJoin destinationDir pkg.id
        let pkgURLBase := pkgURLBaseOf pkgURL
        match fetchAndVerify net sha256hex vw abs pkgURLBase pkg.parts
            pkgDestinationDir primarySigningKey userKeysDir fs₁ with
        | (.panic, fs₂, reqs₂) => (.panic, fs₂, reqs₁ ++ reqs₂)
        | (.ret (.error errs), fs₂, reqs₂) =>
          (.ret (.error (.aggregate errs)), fs₂, reqs₁ ++ reqs₂)
        | (.ret (.ok fetched), fs₂, reqs₂) => (.ret (.ok fetched), fs₂, reqs₁ ++ reqs₂)

/-- One source attempt yields a response but does not complete the part:
either a non-200 status, or a 200 whose body length differs from the
expected byte count (a short/long transfer). -/
def attemptFails (net : Net) (pkgURLBase : String) (expectedBytes : Nat)
    (s : PartSource) : Bool :=
  match net (resolvePartURL pkgURLBase s.url) with
  | none => false
  | some r => !(r.statusCode == 200 && r.body.length == expectedBytes)

/-- One source attempt succeeds: status 200 and the body length equals the
expected byte count. -/
def attemptGood (net : Net) (pkgURLBase : String) (expectedBytes : Nat)
    (s : PartSource) : Bool :=
  match net (resolvePartURL pkgURLBase s.url) with
  | none => false
  | some r => r.statusCode == 200 && r.body.length == expectedBytes

/-- The error `fetchPkgPart` produces on exhaustion, as a function of the
final source attempt only (the `fetchFailure` variable is reset at the top
of each loop iteration, so earlier attempts cannot contribute): a non-200
final status classifies as auth (401/403) or generic-with-detail; a final
200 short/long transfer — like an empty source list — leaves no recorded
failure and yields the bare generic error.  Only meaningful when every
attempt draws a response and fails. -/
def exhaustionClassification (net : Net) (pkgURLBase : String)
    (expectedBytes : Nat) : List PartSource → FetchErr
  | [] => .pkgSourceFetch none
  | [s] =>
    match net (resolvePartURL pkgURLBase s.url) with
    | none => .pkgSourceFetch none
    | some r =>
      if r.statusCode ≠ 200 then
        if r.statusCode = 401 ∨ r.statusCode = 403 then
          .pkgSourceFetchAuth (resolvePartURL pkgURLBase s.url) r.statusCode
        else
          .pkgSourceFetch (some (resolvePartURL pkgURLBase s.url, r.statusCode))
      else
        .pkgSourceFetch none
  | _ :: s :: rest => exhaustionClassification net pkgURLBase expectedBytes (s :: rest)

/-! ## Claim theorems -/

/-- C8: calling the top-level driver `PkgFetch` with an empty
`manifestSignature` returns the configuration error ("Disabling Pkg file
signature checking not supported") with the filesystem untouched and an
empty request log: no manifest fetch and no part fetch is attempted. -/
theorem PkgFetch_empty_signature_no_network (net : Net)
    (sha256hex : List Nat → String) (vw : VerifyWorkload) (decodePkg : DecodePkg)
    (abs : String → String)
    (pkgURL destinationDir primarySigningKey userKeysDir : String) (fs : FS) :
    PkgFetch net sha256hex vw decodePkg abs pkgURL "" destinationDir
      primarySigningKey userKeysDir fs = (.ret (.error .cfgNoSignature), fs, []) := by
  simp [PkgFetch]

/-- C10: over an empty signature list `verifySignatureWithAnyKey` returns
`VerificationError{}` without consulting any key, so `verifyPkgPart` on a
part with no signatures fails with the cryptographic-verification error even
when the file's digest equals the expected hash — and the file stays on
disk. -/
theorem emptySignatures_always_fail_verification :
    (∀ (vw : VerifyWorkload) (primarySigningKey userKeysDir digest : String),
      verifySignatureWithAnyKey vw primarySigningKey userKeysDir digest [] =
        .error .verificationError) ∧
    (∀ (sha256hex : List Nat → String) (vw : VerifyWorkload)
      (primarySigningKey userKeysDir partPath : String) (removeFails : Bool)
      (fs : FS) (content : List Nat),
      fs.lookupFile partPath = some content →
      verifyPkgPart sha256hex vw primarySigningKey userKeysDir partPath
          (sha256hex content) [] removeFails fs =
        (.error (.pkgSignatureVerification .cryptoFail), fs)) := by
  refine ⟨fun _ _ _ _ => rfl, ?_⟩
  intro sha256hex vw k dir path rf fs content h
  simp [verifyPkgPart, h, verifySignatureWithAnyKey]

/-- Closed instance of `emptySignatures_always_fail_verification`. -/
theorem emptySignatures_always_fail_verification_witness :
    verifyPkgPart (fun c => "h" ++ toString c.length) (fun _ _ _ _ => .ok true)
        "pk" "keys" "d/p" "h1" [] false [("d/p", [5])] =
      (.error (.pkgSignatureVerification .cryptoFail), [("d/p", [5])]) :=
  emptySignatures_always_fail_verification.2 (fun c => "h" ++ toString c.length)
    (fun _ _ _ _ => .ok true) "pk" "keys" "d/p" false [("d/p", [5])] [5] rfl

/-- C5: `verifyPkgPart` attempts deletion of the local file and returns the
hash-mismatch verification error (carrying expected and actual digests)
exactly when the file's hex digest differs from the expected hash — a
failing `os.Remove` changes the returned error in no way; when the digest
matches, the file is never deleted and the result is either success or, when
no signature verifies, the cryptographic-verification error. -/
theorem verifyPkgPart_delete_iff_hash_mismatch (sha256hex : List Nat → String)
    (vw : VerifyWorkload)
    (primarySigningKey userKeysDir partPath partHash : String)
    (signatures : List String) (removeFails : Bool) (fs : FS) (content : List Nat)
    (h : fs.lookupFile partPath = some content) :
    (partHash ≠ sha256hex content →
      verifyPkgPart sha256hex vw primarySigningKey userKeysDir partPath partHash
          signatures removeFails fs =
        (.error (.pkgSignatureVerification (.hashMismatch partHash (sha256hex content))),
         if removeFails then fs else fs.removeFile partPath)) ∧
    (partHash = sha256hex content →
      (verifyPkgPart sha256hex vw primarySigningKey userKeysDir partPath partHash
          signatures removeFails fs).2 = fs ∧
      (verifySignatureWithAnyKey vw primarySigningKey userKeysDir
          (sha256hex content) signatures = .ok () →
        verifyPkgPart sha256hex vw primarySigningKey userKeysDir partPath partHash
            signatures removeFails fs = (.ok (), fs)) ∧
      (∀ e, verifySignatureWithAnyKey vw primarySigningKey userKeysDir
          (sha256hex content) signatures = .error e →
        verifyPkgPart sha256hex vw primarySigningKey userKeysDir partPath partHash
            signatures removeFails fs =
          (.error (.pkgSignatureVerification .cryptoFail), fs))) := by
  constructor
  · intro hne
    simp [verifyPkgPart, h, hne]
  · intro heq
    subst heq
    refine ⟨?_, ?_, ?_⟩
    · simp only [verifyPkgPart, h]
      simp only [ne_eq, not_true_eq_false, if_false]
      cases verifySignatureWithAnyKey vw primarySigningKey userKeysDir
          (sha256hex content) signatures with
      | ok u => cases u; rfl
      | error e => rfl
    · intro hok
      simp [verifyPkgPart, h, hok]
    · intro e herr
      simp [verifyPkgPart, h, herr]

/-- Closed instance of `verifyPkgPart_delete_iff_hash_mismatch`: a mismatch
deletes the file and reports expected vs. actual. -/
theorem verifyPkgPart_delete_iff_hash_mismatch_witness :
    verifyPkgPart (fun c => "h" ++ toString c.length) (fun _ _ _ _ => .ok true)
        "pk" "keys" "d/p" "other" ["sig"] false [("d/p", [5])] =
      (.error (.pkgSignatureVerification (.hashMismatch "other" "h1")), []) :=
  (verifyPkgPart_delete_iff_hash_mismatch (fun c => "h" ++ toString c.length)
    (fun _ _ _ _ => .ok true) "pk" "keys" "d/p" "other" ["sig"] false
    [("d/p", [5])] [5] rfl).1 (by decide)

/-- C4: `fetchPkgMeta` returns the manifest-fetch error and leaves the
filesystem untouched for any non-200 response (e.g. HTTP 404), and no
manifest file is ever written unless the response was 200, the signature
verified against the body's digest, and the body decoded — in which case
exactly `<destinationDir>/<pkg.ID>.json` is written with the raw body. -/
theorem fetchPkgMeta_write_gated (net : Net) (sha256hex : List Nat → String)
    (vw : VerifyWorkload) (decodePkg : DecodePkg)
    (primarySigningKey userKeysDir pkgURL pkgURLSignature destinationDir : String)
    (fs : FS) :
    (∀ r, net pkgURL = some r → r.statusCode ≠ 200 →
      fetchPkgMeta net sha256hex vw decodePkg primarySigningKey userKeysDir
          pkgURL pkgURLSignature destinationDir fs =
        (.error (.pkgMetaStatus r.statusCode), fs, [pkgURL])) ∧
    (∀ res fs' rq,
      fetchPkgMeta net sha256hex vw decodePkg primarySigningKey userKeysDir
          pkgURL pkgURLSignature destinationDir fs = (res, fs', rq) →
      fs' ≠ fs →
      ∃ r pkg, net pkgURL = some r ∧ r.statusCode = 200 ∧
        verifySignatureWithAnyKey vw primarySigningKey userKeysDir
          (sha256hex r.body) [pkgURLSignature] = .ok () ∧
        decodePkg r.body = some pkg ∧ res = .ok pkg ∧
        fs' = fs.setFile (pathJoin destinationDir (pkg.id ++ ".json")) r.body) := by
  constructor
  · intro r hr hne
    simp [fetchPkgMeta, hr, hne]
  · intro res fs' rq heq hfs
    unfold fetchPkgMeta at heq
    cases hnet : net pkgURL with
    | none => rw [hnet] at heq; cases heq; exact absurd rfl hfs
    | some r =>
      rw [hnet] at heq
      dsimp only at heq
      by_cases hst : r.statusCode ≠ 200
      · rw [if_pos hst] at heq; cases heq; exact absurd rfl hfs
      · rw [if_neg hst] at heq
        push_neg at hst
        cases hsig : verifySignatureWithAnyKey vw primarySigningKey userKeysDir
            (sha256hex r.body) [pkgURLSignature] with
        | error e => rw [hsig] at heq; cases heq; exact absurd rfl hfs
        | ok u =>
          cases u
          rw [hsig] at heq
          cases hdec : decodePkg r.body with
          | none => rw [hdec] at heq; cases heq; exact absurd rfl hfs
          | some pkg =>
            rw [hdec] at heq
            cases heq
            exact ⟨r, pkg, rfl, hst, hsig, hdec, rfl, rfl⟩

/-- Closed instance of `fetchPkgMeta_write_gated`: an HTTP 404 yields the
manifest-fetch error and writes nothing. -/
theorem fetchPkgMeta_write_gated_witness :
    fetchPkgMeta (fun _ => some ⟨404, []⟩) (fun c => "h" ++ toString c.length)
        (fun _ _ _ _ => .ok true) (fun _ => none) "pk" "keys"
        "http://h/pkg.json" "sig" "dest" [] =
      (.error (.pkgMetaStatus 404), [], ["http://h/pkg.json"]) :=
  (fetchPkgMeta_write_gated (fun _ => some ⟨404, []⟩)
    (fun c => "h" ++ toString c.length) (fun _ _ _ _ => .ok true) (fun _ => none)
    "pk" "keys" "http://h/pkg.json" "sig" "dest" []).1 ⟨404, []⟩ rfl (by decide)

/-- Helper: over sources that all draw a response, the part-fetch loop
succeeds exactly when some source responds 200 with the expected byte
count. -/
theorem fetchPartLoop_ok_iff (net : Net) (base path : String) (expected : Nat)
    (sources : List PartSource) (fs : FS) (reqs : List String)
    (fail : Option partFetchFailure)
    (h : ∀ s ∈ sources, (net (resolvePartURL base s.url)).isSome) :
    ((fetchPartLoop net base path expected sources fs reqs fail).1 = .ret (.ok ()) ↔
      ∃ s ∈ sources, attemptGood net base expected s = true) := by
  induction sources generalizing fs reqs fail with
  | nil =>
    simp only [fetchPartLoop]
    cases fail with
    | none => simp
    | some f =>
      by_cases hf : f.HTTPStatusCode = 401 ∨ f.HTTPStatusCode = 403
      · simp [hf]
      · simp [hf]
  | cons s rest ih =>
    have hs := h s (List.mem_cons_self s rest)
    have hrest : ∀ s' ∈ rest, (net (resolvePartURL base s'.url)).isSome :=
      fun s' hs' => h s' (List.mem_cons_of_mem s hs')
    cases hnet : net (resolvePartURL base s.url) with
    | none => rw [hnet] at hs; simp at hs
    | some r =>
      by_cases hst : r.statusCode = 200
      · by_cases hlen : r.body.length = expected
        · have hgood : attemptGood net base expected s = true := by
            simp [attemptGood, hnet, hst, hlen]
          simp [fetchPartLoop, hnet, hst, hlen, hgood]
        · have hbad : attemptGood net base expected s = false := by
            simp [attemptGood, hnet, hst, hlen]
          simp only [fetchPartLoop, hnet]
          simp only [hst, ne_eq, not_true_eq_false, if_false, hlen, not_false_eq_true,
            if_true]
          rw [ih _ _ _ hrest]
          simp [hbad]
      · have hbad : attemptGood net base expected s = false := by
          simp [attemptGood, hnet, hst]
        simp only [fetchPartLoop, hnet]
        rw [if_pos (by exact hst)]
        rw [ih _ _ _ hrest]
        simp [hbad]

/-- Helper: when every source before `good` draws a failing response and
`good` responds 200 with the expected byte count, the loop returns success
immediately after requesting exactly the resolved URLs of the tried prefix;
the sources after `good` are never requested. -/
theorem fetchPartLoop_first_good (net : Net) (base path : String) (expected : Nat)
    (pre : List PartSource) (good : PartSource) (post : List PartSource)
    (fs : FS) (reqs : List String) (fail : Option partFetchFailure)
    (hpre : ∀ s ∈ pre, attemptFails net base expected s = true)
    (hgood : attemptGood net base expected good = true) :
    ∃ fs', fetchPartLoop net base path expected (pre ++ good :: post) fs reqs fail =
      (.ret (.ok ()), fs',
       reqs ++ (pre ++ [good]).map (fun s => resolvePartURL base s.url)) := by
  induction pre generalizing fs reqs fail with
  | nil =>
    cases hnet : net (resolvePartURL base good.url) with
    | none => simp [attemptGood, hnet] at hgood
    | some r =>
      rw [attemptGood, hnet] at hgood
      simp only [Bool.and_eq_true, beq_iff_eq] at hgood
      refine ⟨(fs.setFile path
        (overwriteFrom0 ((fs.lookupFile path).getD []) r.body)), ?_⟩
      simp [fetchPartLoop, hnet, hgood.1, hgood.2]
  | cons s rest ih =>
    have hs := hpre s (List.mem_cons_self s rest)
    have hrest : ∀ s' ∈ rest, attemptFails net base expected s' = true :=
      fun s' hs' => hpre s' (List.mem_cons_of_mem s hs')
    cases hnet : net (resolvePartURL base s.url) with
    | none => rw [attemptFails, hnet] at hs; simp at hs
    | some r =>
      rw [attemptFails, hnet] at hs
      simp only [Bool.not_eq_eq_eq_not, Bool.not_true, Bool.and_eq_false_imp,
        beq_iff_eq] at hs
      by_cases hst : r.statusCode = 200
      · have hlen : r.body.length ≠ expected := by
          intro hl
          have := hs hst
          simp [hl] at this
        obtain ⟨fs', hfs'⟩ := ih (((fs.setFile path
            (overwriteFrom0 ((fs.lookupFile path).getD []) r.body)).removeFile
              path).openCreate path)
          (reqs ++ [resolvePartURL base s.url]) none hrest
        refine ⟨fs', ?_⟩
        simp only [List.cons_append, fetchPartLoop, hnet]
        rw [if_neg (by simp [hst]), if_pos hlen]
        simp only [List.append_eq]
        rw [hfs']
        simp
      · obtain ⟨fs', hfs'⟩ := ih fs (reqs ++ [resolvePartURL base s.url])
          (some ⟨r.statusCode, resolvePartURL base s.url⟩) hrest
        refine ⟨fs', ?_⟩
        simp only [List.cons_append, fetchPartLoop, hnet]
        rw [if_pos hst]
        simp only [List.append_eq]
        rw [hfs']
        simp

/-- Helper: when every source draws a response and fails, the loop's result
is the error determined by the final source attempt alone (the incoming
`fetchFailure` value is irrelevant because the loop resets it). -/
theorem fetchPartLoop_exhaust (net : Net) (base path : String) (expected : Nat)
    (sources : List PartSource) (fs : FS) (reqs : List String)
    (fail : Option partFetchFailure) (hne : sources ≠ [])
    (hall : ∀ s ∈ sources, attemptFails net base expected s = true) :
    (fetchPartLoop net base path expected sources fs reqs fail).1 =
      .ret (.error (exhaustionClassification net base expected sources)) := by
  induction sources generalizing fs reqs fail with
  | nil => exact absurd rfl hne
  | cons s rest ih =>
    have hs := hall s (List.mem_cons_self s rest)
    cases hnet : net (resolvePartURL base s.url) with
    | none => rw [attemptFails, hnet] at hs; simp at hs
    | some r =>
      rw [attemptFails, hnet] at hs
      simp only [Bool.not_eq_eq_eq_not, Bool.not_true, Bool.and_eq_false_imp,
        beq_iff_eq] at hs
      cases rest with
      | nil =>
        by_cases hst : r.statusCode = 200
        · have hlen : r.body.length ≠ expected := by
            intro hl; have := hs hst; simp [hl] at this
          simp [fetchPartLoop, hnet, hst, hlen, exhaustionClassification]
        · simp only [fetchPartLoop, hnet]
          rw [if_pos hst]
          by_cases hauth : r.statusCode = 401 ∨ r.statusCode = 403
          · simp [fetchPartLoop, hauth, exhaustionClassification, hnet, hst]
          · simp [fetchPartLoop, hauth, exhaustionClassification, hnet, hst]
      | cons s2 rest2 =>
        have hrest : ∀ x ∈ s2 :: rest2, attemptFails net base expected x = true :=
          fun x hx => hall x (List.mem_cons_of_mem s hx)
        have hcls : exhaustionClassification net base expected (s :: s2 :: rest2) =
            exhaustionClassification net base expected (s2 :: rest2) := rfl
        rw [hcls]
        by_cases hst : r.statusCode = 200
        · have hlen : r.body.length ≠ expected := by
            intro hl; have := hs hst; simp [hl] at this
          simp only [fetchPartLoop, hnet]
          rw [if_neg (by simp [hst]), if_pos hlen]
          exact ih _ _ none (by simp) hrest
        · simp only [fetchPartLoop, hnet]
          rw [if_pos hst]
          exact ih _ _ (some ⟨r.statusCode, resolvePartURL base s.url⟩) (by simp) hrest

/-- Helper: when `VerifyWorkload` returns a verdict (no error) for every
listed signature, `verifySignatureWithAnyKey` succeeds exactly when some
listed signature verifies. -/
theorem verifySignatureWithAnyKey_ok_iff (vw : VerifyWorkload)
    (primarySigningKey userKeysDir digest : String) (sigs : List String)
    (h : ∀ sig ∈ sigs, ∃ b, vw primarySigningKey sig digest userKeysDir = .ok b) :
    (verifySignatureWithAnyKey vw primarySigningKey userKeysDir digest sigs = .ok () ↔
      ∃ sig ∈ sigs, vw primarySigningKey sig digest userKeysDir = .ok true) := by
  induction sigs with
  | nil => simp [verifySignatureWithAnyKey]
  | cons sig rest ih =>
    obtain ⟨b, hb⟩ := h sig (List.mem_cons_self sig rest)
    have hrest := fun s hs => h s (List.mem_cons_of_mem sig hs)
    cases b with
    | true => simp [verifySignatureWithAnyKey, hb]
    | false =>
      rw [verifySignatureWithAnyKey, hb]
      rw [ih hrest]
      constructor
      · rintro ⟨s, hs, hv⟩
        exact ⟨s, List.mem_cons_of_mem sig hs, hv⟩
      · rintro ⟨s, hs, hv⟩
        rcases List.mem_cons.mp hs with heq | hmem
        · subst heq; rw [hv] at hb; cases hb
        · exact ⟨s, hmem, hv⟩

/-- C7 counterexample: reordering the signature list changes the pass/fail
outcome of `verifySignatureWithAnyKey`.  With a verifier that errors on
`"bad"` and verifies `"good"`, the order `["bad", "good"]` fails (the error
aborts the scan before `"good"` is tried) while the permutation
`["good", "bad"]` passes. -/
theorem signature_reorder_changes_outcome :
    List.Perm ["bad", "good"] ["good", "bad"] ∧
    verifySignatureWithAnyKey
        (fun _ sig _ _ => if sig = "good" then .ok true else .error "boom")
        "pk" "keys" "d" ["bad", "good"] = .error (.external "boom") ∧
    verifySignatureWithAnyKey
        (fun _ sig _ _ => if sig = "good" then .ok true else .error "boom")
        "pk" "keys" "d" ["good", "bad"] = .ok () := by
  refine ⟨List.Perm.swap "good" "bad" [], ?_, ?_⟩ <;> rfl

/-- C7 amended: permutation invariance of the pass/fail outcome holds once
the underlying verifier returns a verdict (never an error) for every listed
signature, and — for the source list — once every source draws an HTTP
response (no transport error, which would crash the fetch): reordering
`signatures` changes neither success of `verifySignatureWithAnyKey`, and
reordering `sources` does not change whether `fetchPkgPart` succeeds. -/
theorem verification_perm_invariant (vw : VerifyWorkload)
    (primarySigningKey userKeysDir digest : String) (sigs sigs' : List String)
    (net : Net) (base partPath partPath' : String) (expected : Nat)
    (sources sources' : List PartSource) (fs fs' : FS) :
    ((∀ sig ∈ sigs, ∃ b, vw primarySigningKey sig digest userKeysDir = .ok b) →
      sigs.Perm sigs' →
      (verifySignatureWithAnyKey vw primarySigningKey userKeysDir digest sigs = .ok () ↔
        verifySignatureWithAnyKey vw primarySigningKey userKeysDir digest sigs' = .ok ())) ∧
    ((∀ s ∈ sources, (net (resolvePartURL base s.url)).isSome) →
      sources.Perm sources' →
      ((fetchPkgPart net base partPath expected sources fs).1 = .ret (.ok ()) ↔
        (fetchPkgPart net base partPath' expected sources' fs').1 = .ret (.ok ()))) := by
  constructor
  · intro h hperm
    have h' : ∀ sig ∈ sigs', ∃ b, vw primarySigningKey sig digest userKeysDir = .ok b :=
      fun sig hs => h sig (hperm.mem_iff.mpr hs)
    rw [verifySignatureWithAnyKey_ok_iff vw primarySigningKey userKeysDir digest sigs h,
      verifySignatureWithAnyKey_ok_iff vw primarySigningKey userKeysDir digest sigs' h']
    constructor
    · rintro ⟨s, hs, hv⟩; exact ⟨s, hperm.mem_iff.mp hs, hv⟩
    · rintro ⟨s, hs, hv⟩; exact ⟨s, hperm.mem_iff.mpr hs, hv⟩
  · intro h hperm
    have h' : ∀ s ∈ sources', (net (resolvePartURL base s.url)).isSome :=
      fun s hs => h s (hperm.mem_iff.mpr hs)
    rw [fetchPkgPart, fetchPkgPart,
      fetchPartLoop_ok_iff net base partPath expected sources _ [] none h,
      fetchPartLoop_ok_iff net base partPath' expected sources' _ [] none h']
    constructor
    · rintro ⟨s, hs, hv⟩; exact ⟨s, hperm.mem_iff.mp hs, hv⟩
    · rintro ⟨s, hs, hv⟩; exact ⟨s, hperm.mem_iff.mpr hs, hv⟩

/-- Closed instance of `verification_perm_invariant`: swapping a failing and
a verifying signature, and the two sources of a part, leaves both outcomes
unchanged. -/
theorem verification_perm_invariant_witness :
    (verifySignatureWithAnyKey (fun _ sig _ _ => .ok (sig = "good"))
        "pk" "keys" "d" ["bad", "good"] = .ok () ↔
      verifySignatureWithAnyKey (fun _ sig _ _ => .ok (sig = "good"))
        "pk" "keys" "d" ["good", "bad"] = .ok ()) ∧
    ((fetchPkgPart (fun u => if u = "http://h/a" then some ⟨404, []⟩
        else some ⟨200, [1, 2]⟩) "http://h" "d/p" 2 [⟨"/a"⟩, ⟨"/b"⟩] []).1 =
        .ret (.ok ()) ↔
      (fetchPkgPart (fun u => if u = "http://h/a" then some ⟨404, []⟩
        else some ⟨200, [1, 2]⟩) "http://h" "d/p" 2 [⟨"/b"⟩, ⟨"/a"⟩] []).1 =
        .ret (.ok ())) :=
  ⟨(verification_perm_invariant (fun _ sig _ _ => .ok (sig = "good"))
      "pk" "keys" "d" ["bad", "good"] ["good", "bad"]
      (fun u => if u = "http://h/a" then some ⟨404, []⟩ else some ⟨200, [1, 2]⟩)
      "http://h" "d/p" "d/p" 2 [⟨"/a"⟩, ⟨"/b"⟩] [⟨"/b"⟩, ⟨"/a"⟩] [] []).1
      (by intro sig _; exact ⟨sig = "good", rfl⟩) (List.Perm.swap "good" "bad" []),
   (verification_perm_invariant (fun _ sig _ _ => .ok (sig = "good"))
      "pk" "keys" "d" ["bad", "good"] ["good", "bad"]
      (fun u => if u = "http://h/a" then some ⟨404, []⟩ else some ⟨200, [1, 2]⟩)
      "http://h" "d/p" "d/p" 2 [⟨"/a"⟩, ⟨"/b"⟩] [⟨"/b"⟩, ⟨"/a"⟩] [] []).2
      (by intro s _; simp only [resolvePartURL]; split <;> split <;> rfl)
      (List.Perm.swap (⟨"/b"⟩ : PartSource) (⟨"/a"⟩ : PartSource) [])⟩

/-- C6 counterexample: with two sources whose first answers HTTP 403 and
whose second answers 200 with a short body, the last *recorded* source
failure is the 403 — yet `fetchPkgPart` returns the bare generic error
("Failed to complete fetch."), not the authentication error, because the
loop resets its failure record at the top of every iteration and the final
short-transfer iteration leaves it empty. -/
theorem exhaustion_forgets_last_recorded_failure :
    fetchPkgPart
        (fun u => if u = "http://h/a" then some ⟨403, []⟩
          else if u = "http://h/b" then some ⟨200, [1]⟩ else none)
        "http://h" "d/p" 3 [⟨"/a"⟩, ⟨"/b"⟩] [] =
      (.ret (.error (.pkgSourceFetch none)), [("d/p", [])],
        ["http://h/a", "http://h/b"]) ∧
    (fetchPkgPart
        (fun u => if u = "http://h/a" then some ⟨403, []⟩
          else if u = "http://h/b" then some ⟨200, [1]⟩ else none)
        "http://h" "d/p" 3 [⟨"/a"⟩, ⟨"/b"⟩] []).1 ≠
      .ret (.error (.pkgSourceFetchAuth "http://h/a" 403)) := by
  refine ⟨rfl, ?_⟩
  intro h
  rw [show (fetchPkgPart
      (fun u => if u = "http://h/a" then some ⟨403, []⟩
        else if u = "http://h/b" then some ⟨200, [1]⟩ else none)
      "http://h" "d/p" 3 [⟨"/a"⟩, ⟨"/b"⟩] []).1 =
    GoResult.ret (Except.error (FetchErr.pkgSourceFetch none)) from rfl] at h
  simp at h

/-- C6 amended: when every source draws a response and fails, `fetchPkgPart`
classifies the exhaustion by the final source attempt alone: a final 401/403
status yields `PkgSourceFetchAuthError`, any other final non-200 status the
detailed `PkgSourceFetchError`, and a final 200 short/long transfer — like
an empty source list — the bare `PkgSourceFetchError`; failures recorded on
earlier sources are discarded by the per-iteration reset. -/
theorem fetchPkgPart_classifies_by_final_attempt (net : Net)
    (pkgURLBase partPath : String) (expectedBytes : Nat)
    (sources : List PartSource) (fs : FS)
    (hall : ∀ s ∈ sources, attemptFails net pkgURLBase expectedBytes s = true) :
    (fetchPkgPart net pkgURLBase partPath expectedBytes sources fs).1 =
      .ret (.error (exhaustionClassification net pkgURLBase expectedBytes sources)) := by
  cases sources with
  | nil => rfl
  | cons s rest =>
    exact fetchPartLoop_exhaust net pkgURLBase partPath expectedBytes (s :: rest)
      _ [] none (by simp) hall

/-- Closed instance of `fetchPkgPart_classifies_by_final_attempt`: every
source answering 403 yields the authentication error for the last resolved
URL. -/
theorem fetchPkgPart_classifies_by_final_attempt_witness :
    (fetchPkgPart (fun _ => some ⟨403, []⟩) "http://h" "d/p" 3
        [⟨"/a"⟩, ⟨"/b"⟩] []).1 =
      .ret (.error (.pkgSourceFetchAuth "http://h/b" 403)) :=
  fetchPkgPart_classifies_by_final_attempt (fun _ => some ⟨403, []⟩)
    "http://h" "d/p" 3 [⟨"/a"⟩, ⟨"/b"⟩] [] (by decide)

/-- C9: each source tried by `fetchPkgPart` is requested at the URL given by
the resolution rule — package base URL prepended exactly when the location
starts with `/`, the location verbatim otherwise — and the first source
answering 200 with the expected byte count returns success immediately: the
request log covers exactly the failing prefix plus that source, leaving all
later sources untried. -/
theorem fetchPkgPart_resolves_and_stops_at_first_good (net : Net)
    (pkgURLBase partPath : String) (expectedBytes : Nat)
    (pre : List PartSource) (good : PartSource) (post : List PartSource) (fs : FS)
    (hpre : ∀ s ∈ pre, attemptFails net pkgURLBase expectedBytes s = true)
    (hgood : attemptGood net pkgURLBase expectedBytes good = true) :
    (∀ u, resolvePartURL pkgURLBase u =
      if hasSlashPrefix u then pkgURLBase ++ u else u) ∧
    ∃ fs', fetchPkgPart net pkgURLBase partPath expectedBytes
        (pre ++ good :: post) fs =
      (.ret (.ok ()), fs',
       (pre ++ [good]).map (fun s => resolvePartURL pkgURLBase s.url)) := by
  refine ⟨fun _ => rfl, ?_⟩
  obtain ⟨fs', hfs'⟩ := fetchPartLoop_first_good net pkgURLBase partPath
    expectedBytes pre good post (fs.openCreate partPath) [] none hpre hgood
  exact ⟨fs', by rw [fetchPkgPart, hfs']; simp⟩

/-- Closed instance of `fetchPkgPart_resolves_and_stops_at_first_good`: a
404 source, then a matching source resolved against the base URL, then an
untried absolute-URL source. -/
theorem fetchPkgPart_resolves_and_stops_at_first_good_witness :
    ∃ fs', fetchPkgPart
        (fun u => if u = "http://h/a" then some ⟨404, []⟩
          else if u = "http://h/b" then some ⟨200, [1, 2]⟩ else none)
        "http://h" "d/p" 2 [⟨"/a"⟩, ⟨"/b"⟩, ⟨"http://other/c"⟩] [] =
      (.ret (.ok ()), fs', ["http://h/a", "http://h/b"]) :=
  (fetchPkgPart_resolves_and_stops_at_first_good
    (fun u => if u = "http://h/a" then some ⟨404, []⟩
      else if u = "http://h/b" then some ⟨200, [1, 2]⟩ else none)
    "http://h" "d/p" 2 [⟨"/a"⟩] ⟨"/b"⟩ [⟨"http://other/c"⟩] []
    (by decide) (by decide)).2

/-- C1: after the per-part tasks join (here: the serialised loop returns
normally with recorder state `st`), `fetchAndVerify` returns the error
carrying the full per-part error mapping exactly when that mapping is
non-empty — the error return carries no path list at all — and returns the
absolute paths of all verified parts exactly when no error was recorded;
a partial path list is never returned alongside an error. -/
theorem fetchAndVerify_all_or_nothing (net : Net) (sha256hex : List Nat → String)
    (vw : VerifyWorkload) (abs : String → String) (pkgURLBase : String)
    (parts : List (String × DockerImagePart))
    (destinationDir primarySigningKey userKeysDir : String) (fs : FS)
    (st : OrchState)
    (h : fetchAndVerifyLoop net sha256hex vw abs pkgURLBase destinationDir
      primarySigningKey userKeysDir parts ⟨[], [], fs, []⟩ = .ret st) :
    (st.errors ≠ [] →
      fetchAndVerify net sha256hex vw abs pkgURLBase parts destinationDir
        primarySigningKey userKeysDir fs = (.ret (.error st.errors), st.fs, st.reqs)) ∧
    (st.errors = [] →
      fetchAndVerify net sha256hex vw abs pkgURLBase parts destinationDir
        primarySigningKey userKeysDir fs = (.ret (.ok st.fetched), st.fs, st.reqs)) := by
  constructor
  · intro hne
    rw [fetchAndVerify, h]
    dsimp only
    rw [if_pos (by simpa [List.length_pos] using hne)]
  · intro he
    rw [fetchAndVerify, h]
    dsimp only
    rw [if_neg (by simp [he])]

/-- Closed instance of `fetchAndVerify_all_or_nothing`: a single part whose
only source answers 404 makes the whole call fail with exactly that part's
error in the mapping. -/
theorem fetchAndVerify_all_or_nothing_witness :
    fetchAndVerify (fun _ => some ⟨404, []⟩) (fun _ => "h")
        (fun _ _ _ _ => .ok true) (fun p => "/abs/" ++ p) "http://h"
        [("p1", ⟨"id1", 3, "hash", ["sig"], [⟨"/a"⟩]⟩)] "d" "pk" "keys" [] =
      (.ret (.error [("p1", .pkgSourceFetch (some ("http://h/a", 404)))]),
       [("d/p1", [])], ["http://h/a"]) :=
  (fetchAndVerify_all_or_nothing (fun _ => some ⟨404, []⟩) (fun _ => "h")
    (fun _ _ _ _ => .ok true) (fun p => "/abs/" ++ p) "http://h"
    [("p1", ⟨"id1", 3, "hash", ["sig"], [⟨"/a"⟩]⟩)] "d" "pk" "keys" []
    ⟨[("p1", .pkgSourceFetch (some ("http://h/a", 404)))], [],
      [("d/p1", [])], ["http://h/a"]⟩ rfl).1 (by simp)

/-- C2 at its failing input: the local part file `d/p` pre-exists with
exactly the expected 3 bytes, yet `fetchPkgPart` issues an HTTP request to
the part's source and returns that source's failure instead of skipping —
the `O_RDWR|O_CREATE` open succeeds on an existing file, so the
`os.IsExist` guard in front of the size-compare/skip branch never fires. -/
theorem fetchPkgPart_preexisting_exact_size_still_fetches :
    fetchPkgPart (fun _ => some ⟨404, []⟩) "http://h" "d/p" 3 [⟨"/a"⟩]
        [("d/p", [9, 9, 9])] =
      (.ret (.error (.pkgSourceFetch (some ("http://h/a", 404)))),
       [("d/p", [9, 9, 9])], ["http://h/a"]) := rfl

/-- C3 at its failing input: the first source suffers a transport error (no
response is obtained), and instead of recording the failure and advancing to
the second source, `fetchPkgPart` panics — line 228 reads
`response.StatusCode` from the nil response pointer — so the second source
is never tried. -/
theorem fetchPkgPart_transport_error_panics :
    fetchPkgPart (fun _ => none) "http://h" "d/p" 3 [⟨"/a"⟩, ⟨"/b"⟩] [] =
      (.panic, [("d/p", [])], ["http://h/a"]) := rfl
